import Mathlib

/-
Verification of the imprint calibration/validation driver (imprint/driver.py)
against its specification.

The driver code is embedded shallowly:
- machine floats become exact rationals,
- jax arrays become lists (with jax's clamping gather semantics for indexing),
- a jnp NaN value is represented by `Option.none`,
- raised exceptions become `Except.error`,
- in-place pandas mutation of the caller's grid is made explicit by returning
  both the grid used for simulation and the grid the caller observes afterwards.

Collaborators of the driver that are not part of the shown source
(batching.batch, grid.Grid.prune_inactive, the bound families, the simulation
model, numpyro's betaincinv) are modelled from the specification text and are
marked as such in their doc comments; the bound-family transforms and
betaincinv stay fully parametric since only their call pattern matters here.
-/

namespace ImprintSpec

/-- A tile: representative point, boundary vertices and null-hypothesis
assignment, as described in the data model of the spec.  The per-tile
simulation count K is kept alongside in `TileRow` because the driver groups
rows by their K column. -/
structure Tile where
  theta : List ℚ
  vertices : List (List ℚ)
  null_truth : List Bool
deriving DecidableEq

/-- One row of the tile collection: the K column value plus the tile data. -/
structure TileRow where
  K : ℕ
  tile : Tile
deriving DecidableEq

/-- A simulation batch result: a 2D array of test statistics.  A jax array
carries its shape, so the column count is an explicit field (all rows of a
real array have length `ncols`). -/
structure StatMatrix where
  rows : List (List ℚ)
  ncols : ℕ
deriving DecidableEq

/-- The external simulation model: `sim_batch(seed_offset, K, tiles)` returns
a statistic matrix for the requested tiles. -/
structure SimModel where
  sim_batch : ℕ → ℕ → List Tile → StatMatrix

/-- Modelled from the spec: the simulation-model contract of section 6 - the
statistic row of each tile is determined by the seed offset, K and the tile's
own data, and `sim_batch` returns one length-K row per requested tile in
order, with the array's column count equal to K. -/
def pointwise_model (sim : ℕ → ℕ → Tile → List ℚ) : SimModel :=
  { sim_batch := fun seed K tiles => { rows := tiles.map (sim seed K), ncols := K } }

/-- Embeds driver.clopper_pearson.  `betaincinv` is numpyro's inverse
regularized incomplete beta function, kept parametric; `none` stands for a NaN
result.  The `jnp.where(jnp.isnan ..., 0, ...)` of the source becomes the
`none => 0` branch. -/
def clopper_pearson (betaincinv : ℚ → ℚ → ℚ → Option ℚ)
    (tie_sum K delta : ℚ) : ℚ :=
  match betaincinv (tie_sum + 1) (K - tie_sum) (1 - delta) with
  | none => 0
  | some v => v

/-- Embeds driver._calibration_index:
`max(floor((K + 1) * max(alpha, 0)) - 1, 0)`. -/
def _calibration_index (K : ℕ) (alpha : ℚ) : ℤ :=
  max (⌊((K : ℚ) + 1) * max alpha 0⌋ - 1) 0

/-- Indexing a rational jax vector: out-of-bounds gather indices are clamped
to the last position, matching jax's default gather clipping. -/
def jax_get_q (l : List ℚ) (i : ℕ) : ℚ :=
  l.getD (min i (l.length - 1)) 0

/-- Indexing an integer jax vector, with the same clamping. -/
def jax_get_n (l : List ℕ) (i : ℕ) : ℕ :=
  l.getD (min i (l.length - 1)) 0

/-- Embeds driver.calc_calibration_threshold: look up the calibration index
for the tile's sample size, then select `sorted_stats[sorted_order[idx]]`. -/
def calc_calibration_threshold (sorted_stats : List ℚ) (sorted_order : List ℕ)
    (alpha : ℚ) : ℚ :=
  jax_get_q sorted_stats
    (jax_get_n sorted_order (_calibration_index sorted_stats.length alpha).toNat)

/-- Insert a value into an ascending-sorted list. -/
def insort {α : Type} [LinearOrder α] (x : α) : List α → List α
  | [] => [x]
  | y :: ys => if x ≤ y then x :: y :: ys else y :: insort x ys

/-- Ascending insertion sort; models `jnp.sort` applied to one row. -/
def sort_asc {α : Type} [LinearOrder α] : List α → List α
  | [] => []
  | x :: xs => insort x (sort_asc xs)

/-- Embeds driver._check_stats: the returned statistic matrix must have one
row per requested tile and K columns, otherwise a shape-mismatch error is
raised. -/
def _check_stats (stats : StatMatrix) (K : ℕ) (ntiles : ℕ) :
    Except String Unit :=
  if stats.rows.length ≠ ntiles then
    Except.error "sim_batch returned test statistics for the wrong number of tiles."
  else if stats.ncols ≠ K then
    Except.error "sim_batch returned test statistics for the wrong number of simulations."
  else Except.ok ()

/-- One row of the validate output table. -/
structure ValRow where
  tie_sum : ℕ
  tie_est : ℚ
  tie_cp_bound : ℚ
  tie_bound : ℚ
deriving DecidableEq

/-- Embeds `jnp.sum(stats < lam, axis=-1)` for one row of statistics: the sum
of the boolean indicators of being strictly below the threshold. -/
def tie_sum_row (lam : ℚ) (row : List ℚ) : ℕ :=
  (row.map (fun s => if s < lam then 1 else 0)).sum

/-- The per-tile body of Driver.validate._batched after the shape check:
tie_sum, tie_est = tie_sum / K, the Clopper-Pearson bound, and the
bound-family forward transform at the tile's theta and vertices. -/
def validate_row (fwd : ℚ → List ℚ → List (List ℚ) → ℚ)
    (bii : ℚ → ℚ → ℚ → Option ℚ) (K : ℕ) (lam delta : ℚ)
    (t : Tile) (row : List ℚ) : ValRow :=
  let ts := tie_sum_row lam row
  let cp := clopper_pearson bii (ts : ℚ) (K : ℚ) delta
  { tie_sum := ts
    tie_est := (ts : ℚ) / (K : ℚ)
    tie_cp_bound := cp
    tie_bound := fwd cp t.theta t.vertices }

/-- Embeds Driver.validate._batched: simulate the requested tiles with seed
offset 0, check the statistic matrix shape, then compute the four output
columns per tile.  `fwd` is the bound family's forward transform, applied
tile-wise as the vectorized `forward_boundv` does. -/
def validate_batched (m : SimModel) (fwd : ℚ → List ℚ → List (List ℚ) → ℚ)
    (bii : ℚ → ℚ → ℚ → Option ℚ) (K : ℕ) (lam delta : ℚ)
    (tiles : List Tile) : Except String (List ValRow) :=
  let stats := m.sim_batch 0 K tiles
  match _check_stats stats K tiles.length with
  | Except.error e => Except.error e
  | Except.ok _ =>
    Except.ok ((tiles.zip stats.rows).map
      (fun p => validate_row fwd bii K lam delta p.1 p.2))

/-- The per-tile body of Driver.calibrate._batched after the shape check:
sort the tile's statistics ascending, shrink the target level through the
bound family's backward transform, and select the calibrated threshold with
`sorted_order = arange(K)` as the vmapped `calibratev` does.  Returns
(lams, alpha0). -/
def calibrate_row (bwd : ℚ → List ℚ → List (List ℚ) → ℚ) (K : ℕ)
    (alpha : ℚ) (t : Tile) (row : List ℚ) : ℚ × ℚ :=
  let sorted := sort_asc row
  let a0 := bwd alpha t.theta t.vertices
  (calc_calibration_threshold sorted (List.range K) a0, a0)

/-- Embeds Driver.calibrate._batched: simulate with seed offset 0, check the
shape, then compute (lams, alpha0) per tile. -/
def calibrate_batched (m : SimModel) (bwd : ℚ → List ℚ → List (List ℚ) → ℚ)
    (K : ℕ) (alpha : ℚ) (tiles : List Tile) :
    Except String (List (ℚ × ℚ)) :=
  let stats := m.sim_batch 0 K tiles
  match _check_stats stats K tiles.length with
  | Except.error e => Except.error e
  | Except.ok _ =>
    Except.ok ((tiles.zip stats.rows).map
      (fun p => calibrate_row bwd K alpha p.1 p.2))

/-- Embeds Driver.stats's per-group body: simulate with seed offset 0 and
return the raw statistic matrix after the shape check. -/
def stats_batched (m : SimModel) (K : ℕ) (tiles : List Tile) :
    Except String StatMatrix :=
  let stats := m.sim_batch 0 K tiles
  match _check_stats stats K tiles.length with
  | Except.error e => Except.error e
  | Except.ok _ => Except.ok stats

/-- Modelled from the spec: the Batch Runner's splitting step (batching.py is
not in src).  Splits a list into consecutive chunks of at most `bs` elements,
in order. -/
def chunks {α : Type} (bs : ℕ) (l : List α) : List (List α) :=
  if h : l.length = 0 then []
  else if hbs : bs = 0 then [l]
  else l.take bs :: chunks bs (l.drop bs)
termination_by l.length
decreasing_by
  simp only [List.length_drop]
  omega

/-- Run a chunked function over the chunks sequentially, concatenating the
per-chunk outputs in order; an exception in any chunk aborts the whole run. -/
def run_chunks {α β : Type} (f : List α → Except String (List β)) :
    List (List α) → Except String (List β)
  | [] => Except.ok []
  | c :: rest =>
    match f c with
    | Except.error e => Except.error e
    | Except.ok ys =>
      match run_chunks f rest with
      | Except.error e => Except.error e
      | Except.ok zs => Except.ok (ys ++ zs)

/-- Modelled from the spec: batching.batch (batching.py is not in src) -
apply `f` to fixed-size sub-batches of at most `bs` tiles along the leading
axis and concatenate the results back in the original order. -/
def batch {α β : Type} (f : List α → Except String (List β)) (bs : ℕ)
    (l : List α) : Except String (List β) :=
  run_chunks f (chunks bs l)

/-- The distinct values of the K column in ascending order, as pandas
groupby sorts its group keys. -/
def group_keys (df : List (ℕ × TileRow)) : List ℕ :=
  sort_asc ((df.map (fun p => p.2.K)).dedup)

/-- Embeds driver._groupby_apply_K: group the rows by their K value (keeping
their original relative order inside each group), apply `f` per group,
concatenate the group outputs and reindex by the original labels
(`pd.concat(out).loc[df.index]`; a label the concatenated output does not
carry yields `none`). -/
def _groupby_apply_K {β : Type} (df : List (ℕ × TileRow))
    (f : ℕ → List (ℕ × TileRow) → List (ℕ × β)) : List (ℕ × Option β) :=
  let out := ((group_keys df).map
    (fun k => f k (df.filter (fun p => p.2.K == k)))).flatten
  df.map (fun p => (p.1, out.lookup p.1))

/-- Process the K-groups sequentially in group-key order, pairing each
group's output rows with the group's original labels; an exception in any
group aborts the whole call. -/
def run_groups {β : Type} (df : List (ℕ × TileRow))
    (h : ℕ → List Tile → Except String (List β)) :
    List ℕ → Except String (List (ℕ × β))
  | [] => Except.ok []
  | k :: rest =>
    let sub := df.filter (fun p => p.2.K == k)
    match h k (sub.map (fun p => p.2.tile)) with
    | Except.error e => Except.error e
    | Except.ok rows =>
      match run_groups df h rest with
      | Except.error e => Except.error e
      | Except.ok out => Except.ok ((sub.map Prod.fst).zip rows ++ out)

/-- Embeds Driver.validate: per K-group, sub-batched simulation of the
group's tiles, with the outputs reindexed to the original row order. -/
def driver_validate (m : SimModel) (fwd : ℚ → List ℚ → List (List ℚ) → ℚ)
    (bii : ℚ → ℚ → ℚ → Option ℚ) (lam delta : ℚ) (bs : ℕ)
    (df : List (ℕ × TileRow)) : Except String (List (ℕ × Option ValRow)) :=
  match run_groups df
      (fun k tiles => batch (validate_batched m fwd bii k lam delta) bs tiles)
      (group_keys df) with
  | Except.error e => Except.error e
  | Except.ok out => Except.ok (df.map (fun p => (p.1, out.lookup p.1)))

/-- Embeds Driver.calibrate: per K-group sub-batched (lams, alpha0), with
the idx column appended afterwards from the K column and alpha0, reindexed
to the original row order. -/
def driver_calibrate (m : SimModel) (bwd : ℚ → List ℚ → List (List ℚ) → ℚ)
    (alpha : ℚ) (bs : ℕ) (df : List (ℕ × TileRow)) :
    Except String (List (ℕ × Option (ℚ × ℚ × ℤ))) :=
  match run_groups df
      (fun k tiles => batch (calibrate_batched m bwd k alpha) bs tiles)
      (group_keys df) with
  | Except.error e => Except.error e
  | Except.ok out => Except.ok (df.map (fun p =>
      (p.1, (out.lookup p.1).map
        (fun r => (r.1, r.2, _calibration_index p.2.K r.2)))))

/-- The caller-facing grid for the top-level setup: an active flag per tile
and an optional K column (pandas dataframes either have the column for all
rows or not at all). -/
structure MGrid where
  active : List Bool
  Kcol : Option (List ℕ)
deriving DecidableEq

/-- Number of tiles in a grid. -/
def n_tiles (g : MGrid) : ℕ := g.active.length

/-- Modelled from the spec: grid.Grid.prune_inactive (grid.py is not in src)
returns the collection restricted to the tiles whose active flag is set. -/
def prune_inactive (g : MGrid) : MGrid where
  active := g.active.filter (fun b => b)
  Kcol := g.Kcol.map
    (fun ks => ((g.active.zip ks).filter (fun p => p.1)).map (fun p => p.2))

/-- Embeds driver.default_K. -/
def default_K : ℕ := 2 ^ 14

/-- Embeds the K-column assignment of driver._setup: an explicit K argument
overwrites the column; otherwise a missing column is created with default_K
and zero entries are replaced by default_K. -/
def assign_K (g : MGrid) (K : Option ℕ) : MGrid :=
  match K with
  | some k => { g with Kcol := some (g.active.map (fun _ => k)) }
  | none =>
    let ks := match g.Kcol with
      | none => g.active.map (fun _ => default_K)
      | some ks => ks
    { g with Kcol := some (ks.map (fun k => if k = 0 then default_K else k)) }

/-- The observable outcome of driver._setup: the grid actually used for
simulation, the caller's grid as observable after the call, whether the
pruning warning fired, and the K passed to the model constructor. -/
structure SetupResult where
  sim_grid : MGrid
  caller_grid : MGrid
  warned : Bool
  model_K : ℕ
deriving DecidableEq

/-- Embeds driver._setup, making the aliasing of the Python code explicit.
The source computes `g_pruned = g.prune_inactive()` and only compares tile
counts with it; in the branch where pruning removed tiles it warns but keeps
working with the caller's own `g` (no deep copy is taken and `g_pruned` is
discarded), so the in-place K-column assignment lands on the caller's grid.
In the other branch `g` is rebound to a deep copy first, so the caller's
grid stays untouched. -/
def _setup (g : MGrid) (K : Option ℕ) : SetupResult :=
  let pruned := prune_inactive g
  let warned := decide (n_tiles pruned < n_tiles g)
  let gK := assign_K g K
  { sim_grid := gK
    caller_grid := if warned then gK else g
    warned := warned
    model_K := (gK.Kcol.getD []).foldr max 0 }

end ImprintSpec

namespace ImprintSpec

/-- C2: Clopper-Pearson boundary convention.  Whenever
`betaincinv(tie_sum + 1, K - tie_sum, 1 - delta)` is NaN - which at
`tie_sum = K` means `betaincinv` applied to a degenerate second parameter 0 -
the driver substitutes 0, so `clopper_pearson K K delta = 0` for every
integer K >= 1 and every delta in (0,1). -/
theorem clopper_pearson_boundary (bii : ℚ → ℚ → ℚ → Option ℚ)
    (hNaN : ∀ a x : ℚ, bii a 0 x = none)
    (K : ℕ) (hK : 1 ≤ K) (delta : ℚ) (hd0 : 0 < delta) (hd1 : delta < 1) :
    clopper_pearson bii (K : ℚ) (K : ℚ) delta = 0 := by
  unfold clopper_pearson
  rw [sub_self, hNaN]

/-- Witness for C2 at K = 1, delta = 1/2, with a betaincinv that is NaN on a
degenerate second parameter. -/
theorem clopper_pearson_boundary_witness :
    clopper_pearson (fun _ b _ => if b = 0 then none else some b)
      ((1 : ℕ) : ℚ) ((1 : ℕ) : ℚ) (1 / 2) = 0 :=
  clopper_pearson_boundary _ (fun a x => by simp) 1 (by decide)
    (1 / 2) one_half_pos one_half_lt_one

/-- C3 counterexample: the claim says the calibration index never exceeds
K - 1 for every alpha, but at K = 1 and alpha = 1 the index is
`max(floor(2 * 1) - 1, 0) = 1 > 0 = K - 1`. -/
theorem calibration_index_bound_cex :
    ¬ (_calibration_index 1 1 ≤ (1 : ℤ) - 1) := by
  norm_num [_calibration_index]

/-- C3 (amended): for every K >= 1 the calibration index is non-decreasing in
alpha and is 0 at alpha = 0; the bound `idx(alpha) <= K - 1` holds for every
alpha < 1 (it fails at alpha >= 1). -/
theorem calibration_index_props (K : ℕ) (hK : 1 ≤ K) :
    (∀ a b : ℚ, a ≤ b → _calibration_index K a ≤ _calibration_index K b) ∧
    _calibration_index K 0 = 0 ∧
    (∀ a : ℚ, a < 1 → _calibration_index K a ≤ (K : ℤ) - 1) := by
  refine ⟨?_, ?_, ?_⟩
  · intro a b hab
    unfold _calibration_index
    have hKpos : (0 : ℚ) ≤ (K : ℚ) + 1 := by positivity
    exact max_le_max
      (sub_le_sub_right
        (Int.floor_le_floor
          (mul_le_mul_of_nonneg_left (max_le_max hab le_rfl) hKpos)) 1)
      le_rfl
  · unfold _calibration_index
    simp
  · intro a ha
    unfold _calibration_index
    have hm : max a 0 < 1 := max_lt ha zero_lt_one
    have hKpos : (0 : ℚ) < (K : ℚ) + 1 := by positivity
    have hlt : ((K : ℚ) + 1) * max a 0 < ((K : ℚ) + 1) * 1 :=
      mul_lt_mul_of_pos_left hm hKpos
    have hfloor : ⌊((K : ℚ) + 1) * max a 0⌋ < (K : ℤ) + 1 := by
      rw [Int.floor_lt]
      push_cast
      linarith
    have h1 : ⌊((K : ℚ) + 1) * max a 0⌋ - 1 ≤ (K : ℤ) - 1 := by omega
    have h2 : (0 : ℤ) ≤ (K : ℤ) - 1 := by
      have : (1 : ℤ) ≤ (K : ℤ) := by exact_mod_cast hK
      omega
    exact max_le h1 h2

/-- Witness for C3 (amended) at K = 1, with monotonicity applied at (0, 0)
and the bound applied at alpha = 0. -/
theorem calibration_index_props_witness :
    _calibration_index 1 0 ≤ _calibration_index 1 0 ∧
    _calibration_index 1 0 = 0 ∧
    _calibration_index 1 0 ≤ (1 : ℤ) - 1 :=
  ⟨(calibration_index_props 1 (by decide)).1 0 0 le_rfl,
   (calibration_index_props 1 (by decide)).2.1,
   (calibration_index_props 1 (by decide)).2.2 0 zero_lt_one⟩

/-- C4: order-statistic selection.  With `sorted_order = arange(K)` (as the
driver passes it), calibration selects the idx-th entry of the ascending
sorted statistics; in particular K = 10, alpha0 = 3/10 gives idx = 2 and
selects 3/10 from the sorted stats 1/10, ..., 1. -/
theorem calibration_selects_order_stat :
    (∀ (stats : List ℚ) (alpha : ℚ),
        (_calibration_index stats.length alpha).toNat < stats.length →
        calc_calibration_threshold stats (List.range stats.length) alpha
          = stats.getD (_calibration_index stats.length alpha).toNat 0) ∧
    _calibration_index 10 (3 / 10) = 2 ∧
    calc_calibration_threshold
      [1/10, 2/10, 3/10, 4/10, 5/10, 6/10, 7/10, 8/10, 9/10, 1]
      (List.range 10) (3 / 10) = 3 / 10 := by
  refine ⟨?_, ?_, ?_⟩
  · intro stats alpha hlt
    set i := (_calibration_index stats.length alpha).toNat with hi
    have hmin : min i (stats.length - 1) = i := by omega
    have h1 : jax_get_n (List.range stats.length) i = i := by
      unfold jax_get_n
      rw [List.length_range, hmin, List.getD_eq_getElem?_getD,
        List.getElem?_range hlt]
      rfl
    unfold calc_calibration_threshold jax_get_q
    rw [← hi, h1, hmin]
  · norm_num [_calibration_index]
  · have h2 : _calibration_index 10 (3 / 10) = 2 := by
      norm_num [_calibration_index]
    have hlen : List.length
        [(1:ℚ)/10, 2/10, 3/10, 4/10, 5/10, 6/10, 7/10, 8/10, 9/10, 1] = 10 := rfl
    unfold calc_calibration_threshold
    rw [hlen, h2]
    rfl

/-- Witness for C4's general selection statement at stats = [0], alpha = 0. -/
theorem calibration_selects_order_stat_witness :
    calc_calibration_threshold [0] (List.range 1) 0
      = List.getD [(0 : ℚ)] (_calibration_index 1 0).toNat 0 :=
  calibration_selects_order_stat.1 [0] 0 (by simp [_calibration_index])

theorem tie_sum_row_eq_countP (lam : ℚ) (row : List ℚ) :
    tie_sum_row lam row = row.countP (fun s => decide (s < lam)) := by
  induction row with
  | nil => rfl
  | cons x xs ih =>
    simp only [tie_sum_row, List.map_cons, List.sum_cons, List.countP_cons] at *
    by_cases h : x < lam <;> simp [h, ih] <;> omega

/-- C9: in validate, tie_sum is the number of the tile's K statistics
strictly below lam, so it lies in [0, K], and tie_est = tie_sum / K. -/
theorem tie_sum_counts_below_lam (fwd : ℚ → List ℚ → List (List ℚ) → ℚ)
    (bii : ℚ → ℚ → ℚ → Option ℚ) (K : ℕ) (lam delta : ℚ) (t : Tile)
    (row : List ℚ) (hrow : row.length = K) :
    (validate_row fwd bii K lam delta t row).tie_sum
      = row.countP (fun s => decide (s < lam)) ∧
    (validate_row fwd bii K lam delta t row).tie_sum ≤ K ∧
    (validate_row fwd bii K lam delta t row).tie_est
      = ((validate_row fwd bii K lam delta t row).tie_sum : ℚ) / (K : ℚ) := by
  refine ⟨tie_sum_row_eq_countP lam row, ?_, rfl⟩
  calc (validate_row fwd bii K lam delta t row).tie_sum
      = row.countP (fun s => decide (s < lam)) := tie_sum_row_eq_countP lam row
    _ ≤ row.length := List.countP_le_length _
    _ = K := hrow

/-- Witness for C9 with one statistic 0 and lam = 1. -/
theorem tie_sum_counts_below_lam_witness :
    (validate_row (fun x _ _ => x) (fun _ _ _ => none) 1 1 0
        (Tile.mk [] [] []) [0]).tie_sum
      = List.countP (fun s => decide (s < (1 : ℚ))) [0] ∧
    (validate_row (fun x _ _ => x) (fun _ _ _ => none) 1 1 0
        (Tile.mk [] [] []) [0]).tie_sum ≤ 1 ∧
    (validate_row (fun x _ _ => x) (fun _ _ _ => none) 1 1 0
        (Tile.mk [] [] []) [0]).tie_est
      = (((validate_row (fun x _ _ => x) (fun _ _ _ => none) 1 1 0
        (Tile.mk [] [] []) [0]).tie_sum : ℚ) / ((1 : ℕ) : ℚ)) :=
  tie_sum_counts_below_lam (fun x _ _ => x) (fun _ _ _ => none) 1 1 0
    (Tile.mk [] [] []) [0] rfl

/-- C6: whenever the simulation model returns a statistic matrix whose first
dimension differs from the number of requested tiles or whose second
dimension differs from K, both validate and calibrate raise the
shape-mismatch error instead of producing rows. -/
theorem shape_mismatch_raises (m : SimModel)
    (fwd : ℚ → List ℚ → List (List ℚ) → ℚ) (bii : ℚ → ℚ → ℚ → Option ℚ)
    (bwd : ℚ → List ℚ → List (List ℚ) → ℚ) (K : ℕ) (lam delta alpha : ℚ)
    (tiles : List Tile)
    (hbad : (m.sim_batch 0 K tiles).rows.length ≠ tiles.length ∨
            (m.sim_batch 0 K tiles).ncols ≠ K) :
    (∃ e, validate_batched m fwd bii K lam delta tiles = Except.error e) ∧
    (∃ e, calibrate_batched m bwd K alpha tiles = Except.error e) := by
  have hc : ∃ e, _check_stats (m.sim_batch 0 K tiles) K tiles.length
      = Except.error e := by
    unfold _check_stats
    rcases hbad with h | h
    · exact ⟨_, if_pos h⟩
    · by_cases h1 : (m.sim_batch 0 K tiles).rows.length ≠ tiles.length
      · exact ⟨_, if_pos h1⟩
      · rw [if_neg h1, if_pos h]
        exact ⟨_, rfl⟩
  obtain ⟨e, he⟩ := hc
  constructor
  · exact ⟨e, by simp only [validate_batched, he]⟩
  · exact ⟨e, by simp only [calibrate_batched, he]⟩

theorem chunks_length_le {α : Type} (bs : ℕ) (hbs : 0 < bs) (l : List α) :
    ∀ c ∈ chunks bs l, c.length ≤ bs := by
  have H : ∀ (n : ℕ) (l : List α), l.length = n →
      ∀ c ∈ chunks bs l, c.length ≤ bs := by
    intro n
    induction n using Nat.strong_induction_on with
    | _ n ih =>
      intro l hn c hc
      rw [chunks] at hc
      split at hc
      · exact absurd hc (List.not_mem_nil c)
      · split at hc
        · omega
        · rcases List.mem_cons.mp hc with rfl | hc2
          · rw [List.length_take]
            omega
          · exact ih (l.drop bs).length (by rw [List.length_drop]; omega)
              (l.drop bs) rfl c hc2
  exact H l.length l rfl

theorem chunks_flatten {α : Type} (bs : ℕ) (l : List α) :
    (chunks bs l).flatten = l := by
  have H : ∀ (n : ℕ) (l : List α), l.length = n → (chunks bs l).flatten = l := by
    intro n
    induction n using Nat.strong_induction_on with
    | _ n ih =>
      intro l hn
      rw [chunks]
      split
      · rename_i hlen
        simp [List.eq_nil_of_length_eq_zero hlen]
      · split
        · simp
        · rename_i hlen hbs
          rw [List.flatten_cons,
            ih (l.drop bs).length (by rw [List.length_drop]; omega)
              (l.drop bs) rfl]
          exact List.take_append_drop bs l
  exact H l.length l rfl

theorem run_chunks_map {α β : Type} (g : α → β) (cs : List (List α)) :
    run_chunks (fun c => Except.ok (c.map g)) cs
      = Except.ok (cs.flatten.map g) := by
  induction cs with
  | nil => rfl
  | cons c rest ih => simp [run_chunks, ih, List.map_append]

theorem batch_map {α β : Type} (g : α → β) (bs : ℕ) (l : List α) :
    batch (fun c => Except.ok (c.map g)) bs l = Except.ok (l.map g) := by
  unfold batch
  rw [run_chunks_map, chunks_flatten]

theorem zip_map_self {α β γ : Type} (h : α → β → γ) (g : α → β) (l : List α) :
    (l.zip (l.map g)).map (fun p => h p.1 p.2)
      = l.map (fun a => h a (g a)) := by
  induction l with
  | nil => rfl
  | cons x xs ih => simp [ih]

theorem validate_batched_pointwise (sim : ℕ → ℕ → Tile → List ℚ)
    (fwd : ℚ → List ℚ → List (List ℚ) → ℚ) (bii : ℚ → ℚ → ℚ → Option ℚ)
    (K : ℕ) (lam delta : ℚ) (tiles : List Tile) :
    validate_batched (pointwise_model sim) fwd bii K lam delta tiles
      = Except.ok (tiles.map
          (fun t => validate_row fwd bii K lam delta t (sim 0 K t))) := by
  unfold validate_batched pointwise_model _check_stats
  simp [zip_map_self]

theorem calibrate_batched_pointwise (sim : ℕ → ℕ → Tile → List ℚ)
    (bwd : ℚ → List ℚ → List (List ℚ) → ℚ) (K : ℕ) (alpha : ℚ)
    (tiles : List Tile) :
    calibrate_batched (pointwise_model sim) bwd K alpha tiles
      = Except.ok (tiles.map
          (fun t => calibrate_row bwd K alpha t (sim 0 K t))) := by
  unfold calibrate_batched pointwise_model _check_stats
  simp [zip_map_self]

/-- C1: batching transparency.  For a simulation model obeying the per-tile
contract, splitting a K-group into sub-batches of at most tile_batch_size
tiles gives exactly the same validate and calibrate outputs (all columns) as
one single pass over the whole group. -/
theorem batching_transparency (sim : ℕ → ℕ → Tile → List ℚ)
    (fwd bwd : ℚ → List ℚ → List (List ℚ) → ℚ) (bii : ℚ → ℚ → ℚ → Option ℚ)
    (K : ℕ) (lam delta alpha : ℚ) (bs : ℕ) (hbs : 0 < bs)
    (tiles : List Tile) :
    (∀ c ∈ chunks bs tiles, c.length ≤ bs) ∧
    batch (validate_batched (pointwise_model sim) fwd bii K lam delta) bs tiles
      = validate_batched (pointwise_model sim) fwd bii K lam delta tiles ∧
    batch (calibrate_batched (pointwise_model sim) bwd K alpha) bs tiles
      = calibrate_batched (pointwise_model sim) bwd K alpha tiles := by
  refine ⟨chunks_length_le bs hbs tiles, ?_, ?_⟩
  · have hf : validate_batched (pointwise_model sim) fwd bii K lam delta
        = fun c => Except.ok (c.map
            (fun t => validate_row fwd bii K lam delta t (sim 0 K t))) :=
      funext (validate_batched_pointwise sim fwd bii K lam delta)
    rw [hf, batch_map]
  · have hf : calibrate_batched (pointwise_model sim) bwd K alpha
        = fun c => Except.ok (c.map
            (fun t => calibrate_row bwd K alpha t (sim 0 K t))) :=
      funext (calibrate_batched_pointwise sim bwd K alpha)
    rw [hf, batch_map]

/-- Witness for C1: two tiles, batch size 1, K = 1. -/
theorem batching_transparency_witness :
    batch (validate_batched (pointwise_model (fun _ _ _ => [0]))
        (fun x _ _ => x) (fun _ _ _ => none) 1 0 0) 1
        [Tile.mk [] [] [], Tile.mk [] [] []]
      = validate_batched (pointwise_model (fun _ _ _ => [0]))
        (fun x _ _ => x) (fun _ _ _ => none) 1 0 0
        [Tile.mk [] [] [], Tile.mk [] [] []] ∧
    batch (calibrate_batched (pointwise_model (fun _ _ _ => [0]))
        (fun x _ _ => x) 1 0) 1 [Tile.mk [] [] [], Tile.mk [] [] []]
      = calibrate_batched (pointwise_model (fun _ _ _ => [0]))
        (fun x _ _ => x) 1 0 [Tile.mk [] [] [], Tile.mk [] [] []] :=
  ⟨(batching_transparency (fun _ _ _ => [0]) (fun x _ _ => x) (fun x _ _ => x)
      (fun _ _ _ => none) 1 0 0 0 1 (by decide)
      [Tile.mk [] [] [], Tile.mk [] [] []]).2.1,
   (batching_transparency (fun _ _ _ => [0]) (fun x _ _ => x) (fun x _ _ => x)
      (fun _ _ _ => none) 1 0 0 0 1 (by decide)
      [Tile.mk [] [] [], Tile.mk [] [] []]).2.2⟩

theorem mem_insort {α : Type} [LinearOrder α] (x y : α) (l : List α) :
    y ∈ insort x l ↔ y = x ∨ y ∈ l := by
  induction l with
  | nil => simp [insort]
  | cons a as ih =>
    by_cases h : x ≤ a
    · simp [insort, h]
    · simp only [insort, if_neg h, List.mem_cons, ih]
      tauto

theorem mem_sort_asc {α : Type} [LinearOrder α] (y : α) (l : List α) :
    y ∈ sort_asc l ↔ y ∈ l := by
  induction l with
  | nil => simp [sort_asc]
  | cons a as ih => simp [sort_asc, mem_insort, ih]

theorem nodup_key_eq {β : Type} (df : List (ℕ × β))
    (hnd : (df.map Prod.fst).Nodup) :
    ∀ p q, p ∈ df → q ∈ df → p.1 = q.1 → p = q := by
  induction df with
  | nil =>
    intro p q hp
    simp at hp
  | cons a t ih =>
    intro p q hp hq hpq
    simp only [List.map_cons, List.nodup_cons] at hnd
    obtain ⟨ha, ht⟩ := hnd
    rcases List.mem_cons.mp hp with rfl | hp2
    · rcases List.mem_cons.mp hq with rfl | hq2
      · rfl
      · have hm : q.1 ∈ t.map Prod.fst := List.mem_map_of_mem Prod.fst hq2
        rw [← hpq] at hm
        exact absurd hm ha
    · rcases List.mem_cons.mp hq with rfl | hq2
      · have hm : p.1 ∈ t.map Prod.fst := List.mem_map_of_mem Prod.fst hp2
        rw [hpq] at hm
        exact absurd hm ha
      · exact ih ht p q hp2 hq2 hpq

theorem lookup_some_of_mem {β : Type} (l : ℕ) (v : β) :
    ∀ xs : List (ℕ × β), (l, v) ∈ xs →
      ∃ w, xs.lookup l = some w ∧ (l, w) ∈ xs := by
  intro xs
  induction xs with
  | nil =>
    intro h
    simp at h
  | cons a t ih =>
    obtain ⟨k, w⟩ := a
    intro h
    by_cases hlk : l = k
    · subst hlk
      exact ⟨w, by simp [List.lookup], List.mem_cons_self _ _⟩
    · rcases List.mem_cons.mp h with heq | hmem
      · injection heq with h1 h2
        exact absurd h1 hlk
      · obtain ⟨w2, hw2, hmem2⟩ := ih hmem
        refine ⟨w2, ?_, List.mem_cons_of_mem _ hmem2⟩
        have hbeq : (l == k) = false := by
          simp [hlk]
        simp [List.lookup, hbeq, hw2]

theorem groupby_lookup {β : Type} (df : List (ℕ × TileRow))
    (g : ℕ → TileRow → β) (hnd : (df.map Prod.fst).Nodup)
    (p : ℕ × TileRow) (hp : p ∈ df) :
    (((group_keys df).map
        (fun k => (df.filter (fun q => q.2.K == k)).map
          (fun q => (q.1, g k q.2)))).flatten).lookup p.1
      = some (g p.2.K p.2) := by
  have hmem : (p.1, g p.2.K p.2) ∈ ((group_keys df).map
      (fun k => (df.filter (fun q => q.2.K == k)).map
        (fun q => (q.1, g k q.2)))).flatten := by
    apply List.mem_flatten.mpr
    refine ⟨(df.filter (fun q => q.2.K == p.2.K)).map
      (fun q => (q.1, g p.2.K q.2)), ?_, ?_⟩
    · apply List.mem_map.mpr
      refine ⟨p.2.K, ?_, rfl⟩
      unfold group_keys
      rw [mem_sort_asc]
      exact List.mem_dedup.mpr (List.mem_map_of_mem _ hp)
    · apply List.mem_map.mpr
      exact ⟨p, List.mem_filter.mpr ⟨hp, by simp⟩, rfl⟩
  obtain ⟨w, hw, hwmem⟩ := lookup_some_of_mem p.1 (g p.2.K p.2) _ hmem
  have hchar : ∃ q, q ∈ df ∧ q.1 = p.1 ∧ w = g q.2.K q.2 := by
    obtain ⟨grp, hgrp, hwin⟩ := List.mem_flatten.mp hwmem
    obtain ⟨k, hk, rfl⟩ := List.mem_map.mp hgrp
    obtain ⟨q, hqf, hqe⟩ := List.mem_map.mp hwin
    obtain ⟨hqdf, hqk⟩ := List.mem_filter.mp hqf
    have hkeq : q.2.K = k := by simpa using hqk
    injection hqe with h1 h2
    exact ⟨q, hqdf, h1, by rw [← h2, hkeq]⟩
  obtain ⟨q, hq, hq1, hq2⟩ := hchar
  have hqp : q = p := nodup_key_eq df hnd q p hq hp hq1
  rw [hw, hq2, hqp]

/-- C5: row-order preservation.  For a tile collection with distinct labels
and any per-row computation applied per K-group, the groupby-apply-reindex
pipeline returns exactly one output row per input row, carrying the original
labels in the original order. -/
theorem row_order_preservation {β : Type} (df : List (ℕ × TileRow))
    (g : ℕ → TileRow → β) (hnd : (df.map Prod.fst).Nodup) :
    _groupby_apply_K df (fun k sub => sub.map (fun p => (p.1, g k p.2)))
      = df.map (fun p => (p.1, some (g p.2.K p.2))) ∧
    (_groupby_apply_K df
        (fun k sub => sub.map (fun p => (p.1, g k p.2)))).map Prod.fst
      = df.map Prod.fst := by
  have h1 : _groupby_apply_K df (fun k sub => sub.map (fun p => (p.1, g k p.2)))
      = df.map (fun p => (p.1, some (g p.2.K p.2))) := by
    simp only [_groupby_apply_K]
    refine List.map_congr_left ?_
    intro p hp
    rw [groupby_lookup df g hnd p hp]
  refine ⟨h1, ?_⟩
  rw [h1, List.map_map]
  exact List.map_congr_left (fun a _ => rfl)

/-- Witness for C5: two rows with distinct labels and different K values. -/
theorem row_order_preservation_witness :
    _groupby_apply_K
        [(0, TileRow.mk 1 (Tile.mk [] [] [])), (1, TileRow.mk 2 (Tile.mk [] [] []))]
        (fun k sub => sub.map (fun p => (p.1, k)))
      = List.map (fun p => (p.1, some p.2.K))
        [(0, TileRow.mk 1 (Tile.mk [] [] [])), (1, TileRow.mk 2 (Tile.mk [] [] []))] ∧
    (_groupby_apply_K
        [(0, TileRow.mk 1 (Tile.mk [] [] [])), (1, TileRow.mk 2 (Tile.mk [] [] []))]
        (fun k sub => sub.map (fun p => (p.1, k)))).map Prod.fst
      = List.map Prod.fst
        [(0, TileRow.mk 1 (Tile.mk [] [] [])), (1, TileRow.mk 2 (Tile.mk [] [] []))] :=
  row_order_preservation
    [(0, TileRow.mk 1 (Tile.mk [] [] [])), (1, TileRow.mk 2 (Tile.mk [] [] []))]
    (fun k _ => k) (by decide)

/-- C7 (code bug): for a grid containing an inactive tile, _setup takes the
warning branch, where the source neither rebinds `g` to the pruned grid nor
deep-copies it; the in-place K assignment therefore mutates the caller's
grid, contradicting the deep-copy claim.  With no inactive tile the deep
copy does protect the caller. -/
theorem setup_mutates_caller_on_prune :
    (_setup (MGrid.mk [true, false] none) (some 5)).caller_grid
      ≠ MGrid.mk [true, false] none ∧
    (_setup (MGrid.mk [true, false] none) (some 5)).warned = true ∧
    (_setup (MGrid.mk [true, true] none) (some 5)).caller_grid
      = MGrid.mk [true, true] none := by
  decide

/-- C8 (code bug): on the same grid the warning fires, yet the grid actually
simulated still contains the inactive tile - `g_pruned` is discarded by the
source, so the simulation model is invoked on inactive tiles as well,
contradicting the pruning claim (and the warning's own text). -/
theorem setup_simulates_inactive_tiles :
    (_setup (MGrid.mk [true, false] none) (some 5)).warned = true ∧
    (prune_inactive (MGrid.mk [true, false] none)).active = [true] ∧
    (_setup (MGrid.mk [true, false] none) (some 5)).sim_grid.active
      = [true, false] := by
  decide

/-- C10: every sim_batch invocation made by stats, validate and calibrate
passes seed offset 0: two models that agree on seed offset 0 (but may differ
elsewhere) produce identical results through the whole grouped and
sub-batched pipeline. -/
theorem seed_offset_always_zero (m1 m2 : SimModel)
    (h : ∀ (K : ℕ) (tiles : List Tile),
      m1.sim_batch 0 K tiles = m2.sim_batch 0 K tiles)
    (fwd bwd : ℚ → List ℚ → List (List ℚ) → ℚ) (bii : ℚ → ℚ → ℚ → Option ℚ)
    (lam delta alpha : ℚ) (bs : ℕ) (df : List (ℕ × TileRow)) (K : ℕ)
    (tiles : List Tile) :
    driver_validate m1 fwd bii lam delta bs df
      = driver_validate m2 fwd bii lam delta bs df ∧
    driver_calibrate m1 bwd alpha bs df
      = driver_calibrate m2 bwd alpha bs df ∧
    stats_batched m1 K tiles = stats_batched m2 K tiles := by
  have h0 : m1.sim_batch 0 = m2.sim_batch 0 :=
    funext fun K => funext fun ts => h K ts
  have hv : validate_batched m1 = validate_batched m2 := by
    funext fwd bii K lam delta tiles
    simp only [validate_batched, h0]
  have hc : calibrate_batched m1 = calibrate_batched m2 := by
    funext bwd K alpha tiles
    simp only [calibrate_batched, h0]
  refine ⟨?_, ?_, ?_⟩
  · simp only [driver_validate, hv]
  · simp only [driver_calibrate, hc]
  · simp only [stats_batched, h0]

/-- Witness for C10: two models that differ at seed offset 1 but agree at
seed offset 0 give the same driver results. -/
theorem seed_offset_always_zero_witness :
    driver_validate (SimModel.mk (fun _ K _ => StatMatrix.mk [] K))
        (fun x _ _ => x) (fun _ _ _ => none) 0 0 1
        [(0, TileRow.mk 1 (Tile.mk [] [] []))]
      = driver_validate
        (SimModel.mk (fun s K _ => StatMatrix.mk [] (if s = 0 then K else K + 1)))
        (fun x _ _ => x) (fun _ _ _ => none) 0 0 1
        [(0, TileRow.mk 1 (Tile.mk [] [] []))] ∧
    driver_calibrate (SimModel.mk (fun _ K _ => StatMatrix.mk [] K))
        (fun x _ _ => x) 0 1 [(0, TileRow.mk 1 (Tile.mk [] [] []))]
      = driver_calibrate
        (SimModel.mk (fun s K _ => StatMatrix.mk [] (if s = 0 then K else K + 1)))
        (fun x _ _ => x) 0 1 [(0, TileRow.mk 1 (Tile.mk [] [] []))] ∧
    stats_batched (SimModel.mk (fun _ K _ => StatMatrix.mk [] K)) 1
        [Tile.mk [] [] []]
      = stats_batched
        (SimModel.mk (fun s K _ => StatMatrix.mk [] (if s = 0 then K else K + 1)))
        1 [Tile.mk [] [] []] :=
  seed_offset_always_zero (SimModel.mk (fun _ K _ => StatMatrix.mk [] K))
    (SimModel.mk (fun s K _ => StatMatrix.mk [] (if s = 0 then K else K + 1)))
    (fun _ _ => rfl) (fun x _ _ => x) (fun x _ _ => x) (fun _ _ _ => none)
    0 0 0 1 [(0, TileRow.mk 1 (Tile.mk [] [] []))] 1 [Tile.mk [] [] []]

/-- Witness for C6: a model returning 0 rows for 1 requested tile. -/
theorem shape_mismatch_raises_witness :
    (∃ e, validate_batched (SimModel.mk (fun _ K _ => StatMatrix.mk [] K))
        (fun x _ _ => x) (fun _ _ _ => none) 1 0 0 [Tile.mk [] [] []]
        = Except.error e) ∧
    (∃ e, calibrate_batched (SimModel.mk (fun _ K _ => StatMatrix.mk [] K))
        (fun x _ _ => x) 1 0 [Tile.mk [] [] []] = Except.error e) :=
  shape_mismatch_raises (SimModel.mk (fun _ K _ => StatMatrix.mk [] K))
    (fun x _ _ => x) (fun _ _ _ => none) (fun x _ _ => x) 1 0 0 0
    [Tile.mk [] [] []] (Or.inl (by decide))

end ImprintSpec
